import Mathlib

/-!
# PNGLibrary (Stella): decode buffer cache, pixel conversion, codec control flow

A shallow embedding of `src/common/PNGLibrary.cxx`.

* `png_uint_32` / `uInt32` values are natural numbers; every 32-bit
  computation of the source is reduced modulo `4294967296 = 2 ^ 32`.
* Raw memory reached through a pointer is a map from offsets to values;
  a pointer into the decode buffer is represented by its byte offset from
  `ReadInfo.buffer.get()`, a pointer into the surface by its word offset
  from the base pointer returned by `basePtr`.
* A `unique_ptr` is an `Option`: `none` is `nullptr`.
* The external codec (libpng), the stream and the heap are collaborators:
  what they answer during one call is an explicit argument of the call.
-/

namespace PNGLibrary

/-! ## Memory -/

/-- Memory behind a raw pointer: the value stored at each offset. -/
abbrev Mem := Nat → Nat

/-- Freshly value-initialised storage, as `make_unique<T[]>(n)` returns it. -/
def Mem.zero : Mem := fun _ => 0

/-- The store `p[i] = v`. -/
def Mem.store (m : Mem) (i v : Nat) : Mem := fun j => if j = i then v else m j

/-- The load `p[i]` through an owner. Through a null owner the source has no
defined behaviour (the process faults on the access); the 0 returned here only
keeps the function total, and a statement about a value read says something
about the source only where the owner is not null. -/
def deref (p : Option Mem) (i : Nat) : Nat :=
  match p with
  | some m => m i
  | none => 0

/-- What the heap answers to the two `make_unique` requests of `allocateStorage`:
whether a request for `n` elements yields storage (`true`) or not. The source
tests the result against `nullptr` and the embedding follows that test; the
standard `make_unique` reports a failure by throwing `std::bad_alloc` instead,
so on a real heap only the answer `true` comes back to `allocateStorage`. -/
structure Heap where
  bytes_ok : Nat → Bool
  rows_ok : Nat → Bool

/-- The result of `make_unique<T[]>(n)` as `allocateStorage` tests it: zeroed
storage, or `nullptr`. -/
def make_unique (ok : Bool) : Option Mem := if ok then some Mem.zero else none

/-- A heap on which every request succeeds. -/
def Heap.plenty : Heap := ⟨fun _ => true, fun _ => true⟩

/-! ## The decode buffer cache -/

/-- The struct `PNGLibrary::ReadInfoType`. -/
structure ReadInfoType where
  buffer : Option Mem
  row_pointers : Option Mem
  width : Nat
  height : Nat
  pitch : Nat
  buffer_size : Nat
  row_size : Nat

/-- The static `PNGLibrary::ReadInfo = { nullptr, nullptr, 0, 0, 0, 0, 0 }`. -/
def ReadInfo : ReadInfoType := ⟨none, none, 0, 0, 0, 0, 0⟩

/-- The member `PNGLibrary::allocateStorage(w, h)`: the returned flag and the
cache after the call. -/
def allocateStorage (heap : Heap) (ri : ReadInfoType) (w h : Nat) : Bool × ReadInfoType :=
  let req_buffer_size := (w * h * 3) % 4294967296
  let grown : Option ReadInfoType :=
    if req_buffer_size > ri.buffer_size then
      match make_unique (heap.bytes_ok req_buffer_size) with
      | none => none
      | some m => some { ri with buffer := some m, buffer_size := req_buffer_size }
    else some ri
  match grown with
  | none => (false, { ri with buffer := none })
  | some ri1 =>
    let req_row_size := h
    let rows : Option ReadInfoType :=
      if req_row_size > ri1.row_size then
        match make_unique (heap.rows_ok req_row_size) with
        | none => none
        | some m => some { ri1 with row_pointers := some m, row_size := req_row_size }
      else some ri1
    match rows with
    | none => (false, { ri1 with row_pointers := none })
    | some ri2 =>
      (true, { ri2 with width := w, height := h, pitch := (w * 3) % 4294967296 })

/-- The row-pointer loop of `loadImage` (source line 96): `n` iterations are
left, the next one stores `buffer.get() + offset` in `row_pointers[irow]`;
`offset` is a `uInt32`. -/
def rowPointerLoop (pitch : Nat) : Nat → Nat → Nat → Mem → Mem
  | 0, _, _, rows => rows
  | n + 1, irow, offset, rows =>
    rowPointerLoop pitch n (irow + 1) ((offset + pitch) % 4294967296) (rows.store irow offset)

/-- The cache after the row-pointer loop of `loadImage` has run. -/
def setRowPointers (ri : ReadInfoType) : ReadInfoType :=
  { ri with row_pointers := ri.row_pointers.map (rowPointerLoop ri.pitch ri.height 0 0) }

/-! ## The destination surface -/

/-- Modelled from the spec: `FBSurface` is declared outside `src/`; this is the
part of the surface collaborator the code consumes: current width and height,
the active source offset and size, and the raw pixel base pointer with its row
pitch (in pixels). -/
structure FBSurface where
  width : Nat
  height : Nat
  pitch : Nat
  srcX : Nat
  srcY : Nat
  srcW : Nat
  srcH : Nat
  pixels : Mem

/-- The call `surface.setSrcPos(x, y)`. -/
def FBSurface.setSrcPos (s : FBSurface) (x y : Nat) : FBSurface := { s with srcX := x, srcY := y }

/-- The call `surface.setSrcSize(w, h)`. -/
def FBSurface.setSrcSize (s : FBSurface) (w h : Nat) : FBSurface := { s with srcW := w, srcH := h }

/-- The inner loop of `loadImagetoSurface` (source lines 283-284): `n` columns
are left, `i_ptr` and `s_ptr` are the current offsets into the decode buffer and
the surface. -/
def convertRow (mapRGB : Nat → Nat → Nat → Nat) (buf : Option Mem) : Nat → Nat → Nat → Mem → Mem
  | 0, _, _, px => px
  | n + 1, i_ptr, s_ptr, px =>
    convertRow mapRGB buf n (i_ptr + 3) (s_ptr + 1)
      (px.store s_ptr (mapRGB (deref buf i_ptr) (deref buf (i_ptr + 1)) (deref buf (i_ptr + 2))))

/-- The outer loop of `loadImagetoSurface` (source lines 279-285): `n` rows are
left, `i_buf` and `s_buf` are the offsets of the current row in the decode
buffer and in the surface. -/
def convertRows (mapRGB : Nat → Nat → Nat → Nat) (buf : Option Mem) (width i_pitch s_pitch : Nat) :
    Nat → Nat → Nat → Mem → Mem
  | 0, _, _, px => px
  | n + 1, i_buf, s_buf, px =>
    convertRows mapRGB buf width i_pitch s_pitch n (i_buf + i_pitch) (s_buf + s_pitch)
      (convertRow mapRGB buf width i_buf s_buf px)

/-- The first steps of `loadImagetoSurface` (source lines 264-271): resize when
the image does not fit, then set the source position and size. -/
def prepareSurface (resize : FBSurface → Nat → Nat → FBSurface) (ri : ReadInfoType)
    (surface : FBSurface) : FBSurface :=
  let iw := ri.width
  let ih := ri.height
  let s := if iw > surface.width ∨ ih > surface.height then resize surface iw ih else surface
  (s.setSrcPos 0 0).setSrcSize iw ih

/-- The member `PNGLibrary::loadImagetoSurface(surface)`. `mapRGB` is
`myFB.mapRGB`, `resize` is `FBSurface::resize`. -/
def loadImagetoSurface (mapRGB : Nat → Nat → Nat → Nat) (resize : FBSurface → Nat → Nat → FBSurface)
    (ri : ReadInfoType) (surface : FBSurface) : FBSurface :=
  let s := prepareSurface resize ri surface
  let ih := ri.height
  let s_pitch := s.pitch
  let i_pitch := ri.pitch
  { s with pixels := convertRows mapRGB ri.buffer ri.width i_pitch s_pitch ih 0 0 s.pixels }

/-! ## The codec boundary -/

/-- How a member function ends: it returns, or an exception leaves it. -/
inductive Exit where
  | returned
  | threw (what : String)
deriving DecidableEq, Repr

/-- How a call into the codec ends: it comes back with a result, or the codec
reports a fatal condition (`png_user_error`) or a warning (`png_user_warn`)
through the handlers registered at context creation. -/
inductive Step (α : Type) where
  | ok (a : α)
  | error (str : String)
  | warn (str : String)

/-- The handler `PNGLibrary::png_user_warn`: it throws. -/
def png_user_warn (str : String) : Exit := .threw ("PNGLibrary warning: " ++ str)

/-- The handler `PNGLibrary::png_user_error`: it throws. -/
def png_user_error (str : String) : Exit := .threw ("PNGLibrary error: " ++ str)

/-! The codec constants the code names are macros of png.h, which is outside the
repository; they carry the values png.h gives them. -/

/-- Colour type of a greyscale image. -/
def PNG_COLOR_TYPE_GRAY : Int := 0

/-- Colour type of a palette image. -/
def PNG_COLOR_TYPE_PALETTE : Int := 3

/-- Colour type of an RGB image. -/
def PNG_COLOR_TYPE_RGB : Int := 2

/-- Colour type of an RGB image with alpha. -/
def PNG_COLOR_TYPE_RGBA : Int := 6

/-- Colour type of a greyscale image with alpha. -/
def PNG_COLOR_TYPE_GRAY_ALPHA : Int := 4

/-- Interlace method: none. -/
def PNG_INTERLACE_NONE : Int := 0

/-- Compression method: the default one. -/
def PNG_COMPRESSION_TYPE_DEFAULT : Int := 0

/-- Filter method: the default one. -/
def PNG_FILTER_TYPE_DEFAULT : Int := 0

/-- Filler position: after the colour bytes. -/
def PNG_FILLER_AFTER : Int := 1

/-- Text entry tag: uncompressed text. -/
def PNG_TEXT_COMPRESSION_NONE : Int := -1

/-- The header fields `png_get_IHDR` hands back to `loadImage`. -/
structure IHDR where
  width : Nat
  height : Nat
  bit_depth : Int
  color_type : Int
  interlace_type : Int
deriving DecidableEq, Repr

/-- The fields of a codec text entry that `writeComments` assigns. -/
structure png_text where
  compression : Int
  key : String
  text : String
  text_length : Nat
deriving DecidableEq, Repr

/-- One step of a load or save call that is visible from outside: a call into
the codec with the arguments that matter, or one of the two member calls of
`loadImage`. -/
inductive Event where
  | create_read_struct
  | create_write_struct
  | create_info_struct
  | set_read_fn
  | set_write_fn
  | read_info
  | get_IHDR
  | set_strip_16
  | set_packing
  | set_strip_alpha
  | set_palette_to_rgb
  | allocateStorage (w h : Nat)
  | read_image
  | read_end
  | loadImagetoSurface
  | destroy_read_struct (with_info : Bool)
  | set_IHDR (width height : Nat) (bit_depth color_type interlace compression filter : Int)
  | set_text (text_ptr : List png_text) (num_text : Int)
  | write_info
  | set_swap_alpha
  | set_filler (filler : Nat) (flags : Int)
  | set_bgr
  | write_image (rows : List Nat)
  | write_end
  | destroy_write_struct
deriving DecidableEq, Repr

/-! ## loadImage -/

/-- What the collaborators answer during one `loadImage` call: the stream, the
codec and the heap. `image_rows` are the rows the codec decodes during
`png_read_image` before that call ends as `read_image` says. -/
structure LoadEnv where
  is_open : Bool
  create_read_struct : Bool
  create_info_struct : Bool
  read_info : Step IHDR
  heap : Heap
  image_rows : List (List Nat)
  read_image : Step Unit
  read_end : Step Unit

/-- What one `loadImage` call leaves behind. -/
structure LoadResult where
  exit : Exit
  trace : List Event
  readInfo : ReadInfoType
  surface : FBSurface

/-- Stores the bytes of one decoded row from offset `off` on. -/
def storeBytes (m : Mem) : Nat → List Nat → Mem
  | _, [] => m
  | off, b :: bs => storeBytes (m.store off b) (off + 1) bs

/-- Modelled from the spec: the codec's full-image read, which is outside the
repository; it stores decoded row `i`, `i + 1`, ... at row pointers `i`,
`i + 1`, ... of the table it is given. -/
def png_read_image (row_pointers : Mem) : List (List Nat) → Nat → Mem → Mem
  | [], _, m => m
  | r :: rs, i, m => png_read_image row_pointers rs (i + 1) (storeBytes m (row_pointers i) r)

/-- The format check of `loadImage` (source lines 73-89): the message of the
`loadImageERROR` it takes, or the codec calls it makes before going on. -/
def formatCheck (color_type : Int) : Except String (List Event) :=
  if color_type = PNG_COLOR_TYPE_RGBA then .ok [.set_strip_alpha]
  else if color_type = PNG_COLOR_TYPE_GRAY ∨ color_type = PNG_COLOR_TYPE_GRAY_ALPHA then
    .error "Greyscale PNG images not supported"
  else if color_type = PNG_COLOR_TYPE_PALETTE then .ok [.set_palette_to_rgb]
  else if color_type ≠ PNG_COLOR_TYPE_RGB then .error "Unknown format in PNG image"
  else .ok []

/-- The label `done:` of `loadImage` (source lines 109-114). -/
def loadImage_done (trace : List Event) (png_ptr info_ptr : Bool) (err_message : Option String)
    (ri : ReadInfoType) (surface : FBSurface) : LoadResult :=
  let trace := if png_ptr then trace ++ [.destroy_read_struct info_ptr] else trace
  match err_message with
  | some s => ⟨.threw s, trace, ri, surface⟩
  | none => ⟨.returned, trace, ri, surface⟩

/-- The member `PNGLibrary::loadImage(filename, surface)`; `ri` is the static
`ReadInfo` as the call finds it. Where `ReadInfo.buffer` is null when
`png_read_image` stores into it (source line 100) or the conversion reads from
it (line 284), the source has no defined behaviour; the embedding carries the
null buffer on unchanged, and what it yields from that access on says nothing
about the source. -/
def loadImage (mapRGB : Nat → Nat → Nat → Nat) (resize : FBSurface → Nat → Nat → FBSurface)
    (env : LoadEnv) (ri : ReadInfoType) (surface : FBSurface) : LoadResult :=
  if !env.is_open then
    loadImage_done [] false false (some "No image found") ri surface
  else
  let t := [Event.create_read_struct]
  if !env.create_read_struct then
    loadImage_done t false false (some "Couldn't allocate memory for PNG file") ri surface
  else
  let t := t ++ [.create_info_struct]
  if !env.create_info_struct then
    loadImage_done t true false (some "Couldn't create image information for PNG file") ri surface
  else
  let t := t ++ [.set_read_fn, .read_info]
  match env.read_info with
  | .error str => ⟨png_user_error str, t, ri, surface⟩
  | .warn str => ⟨png_user_warn str, t, ri, surface⟩
  | .ok hdr =>
  let iwidth := hdr.width
  let iheight := hdr.height
  let color_type := hdr.color_type
  let t := t ++ [.get_IHDR, .set_strip_16, .set_packing]
  match formatCheck color_type with
  | .error s => loadImage_done t true true (some s) ri surface
  | .ok calls =>
  let t := t ++ calls ++ [.allocateStorage iwidth iheight]
  match allocateStorage env.heap ri iwidth iheight with
  | (false, ri) => loadImage_done t true true (some "Not enough memory to read PNG file") ri surface
  | (true, ri) =>
  let ri := setRowPointers ri
  let t := t ++ [.read_image]
  let ri := { ri with buffer := ri.buffer.map (png_read_image (deref ri.row_pointers) env.image_rows 0) }
  match env.read_image with
  | .error str => ⟨png_user_error str, t, ri, surface⟩
  | .warn str => ⟨png_user_warn str, t, ri, surface⟩
  | .ok _ =>
  let t := t ++ [.read_end]
  match env.read_end with
  | .error str => ⟨png_user_error str, t, ri, surface⟩
  | .warn str => ⟨png_user_warn str, t, ri, surface⟩
  | .ok _ =>
  let t := t ++ [.loadImagetoSurface]
  let surface := loadImagetoSurface mapRGB resize ri surface
  loadImage_done t true true none ri surface

/-! ## saveImage -/

/-- A comment list (`VariantList`): pairs of a key and a value shown as text. -/
abbrev VariantList := List (String × String)

/-- The loop of `writeComments` (source lines 297-303): `n` entries are left,
the next one fills `text_ptr[i]`. -/
def textLoop (comments : VariantList) : Nat → Nat → List png_text → List png_text
  | 0, _, text_ptr => text_ptr
  | n + 1, i, text_ptr =>
    textLoop comments n (i + 1)
      (text_ptr.set i ⟨PNG_TEXT_COMPRESSION_NONE, (comments.getD i default).1,
        (comments.getD i default).2, 0⟩)

/-- The value an `int` parameter receives from a `uInt32` argument: the same
number below 2^31, the number minus 2^32 from 2^31 on. -/
def asInt (n : Nat) : Int := if n < 2147483648 then (n : Int) else (n : Int) - 4294967296

/-- The member `PNGLibrary::writeComments(png_ptr, info_ptr, comments)`: the
calls it makes into the codec. The last parameter of `png_set_text` is declared
`int num_text` in png.h, so the `uInt32` count is converted on the call. -/
def writeComments (comments : VariantList) : List Event :=
  let numComments := comments.length % 4294967296
  if numComments = 0 then []
  else
    let text_ptr := List.replicate numComments (⟨0, "", "", 0⟩ : png_text)
    [.set_text (textLoop comments numComments 0 text_ptr) (asInt numComments)]

/-- What the codec answers during one stream-level `saveImage` call:
`set_IHDR` says how `png_set_IHDR` ends, which raises when the codec does not
accept the declared header (a width or height of 0, or above its limits). -/
structure SaveEnv where
  create_write_struct : Bool
  create_info_struct : Bool
  set_IHDR : Step Unit
  write_info : Step Unit
  write_image : Step Unit
  write_end : Step Unit

/-- What one `saveImage` call leaves behind. -/
structure SaveResult where
  exit : Exit
  trace : List Event
deriving DecidableEq, Repr

/-- The label `done:` of the stream-level `saveImage` (source lines 223-227). -/
def saveImage_done (trace : List Event) (png_ptr : Bool) (err_message : Option String) :
    SaveResult :=
  let trace := if png_ptr then trace ++ [.destroy_write_struct] else trace
  match err_message with
  | some s => ⟨.threw s, trace⟩
  | none => ⟨.returned, trace⟩

/-- The member `PNGLibrary::saveImage(out, rows, width, height, comments)`. -/
def saveImage (env : SaveEnv) (rows : List Nat) (width height : Nat) (comments : VariantList) :
    SaveResult :=
  let t := [Event.create_write_struct]
  if !env.create_write_struct then
    saveImage_done t false (some "Couldn't allocate memory for PNG file")
  else
  let t := t ++ [.create_info_struct]
  if !env.create_info_struct then
    saveImage_done t true (some "Couldn't create image information for PNG file")
  else
  let t := t ++ [.set_write_fn,
    .set_IHDR width height 8 PNG_COLOR_TYPE_RGB PNG_INTERLACE_NONE PNG_COMPRESSION_TYPE_DEFAULT
      PNG_FILTER_TYPE_DEFAULT]
  match env.set_IHDR with
  | .error str => ⟨png_user_error str, t⟩
  | .warn str => ⟨png_user_warn str, t⟩
  | .ok _ =>
  let t := t ++ writeComments comments
  let t := t ++ [.write_info]
  match env.write_info with
  | .error str => ⟨png_user_error str, t⟩
  | .warn str => ⟨png_user_warn str, t⟩
  | .ok _ =>
  let t := t ++ [.set_packing, .set_swap_alpha, .set_filler 0 PNG_FILLER_AFTER, .set_bgr,
    .write_image rows]
  match env.write_image with
  | .error str => ⟨png_user_error str, t⟩
  | .warn str => ⟨png_user_warn str, t⟩
  | .ok _ =>
  let t := t ++ [.write_end]
  match env.write_end with
  | .error str => ⟨png_user_error str, t⟩
  | .warn str => ⟨png_user_warn str, t⟩
  | .ok _ => saveImage_done t true none

/-- Modelled from the spec: `GUI::Rect` is declared outside `src/`; a
SourceRegion (x, y, width, height) with the observer `empty()` the code
consults. No relation between the observers is assumed. -/
structure Rect where
  x : Nat
  y : Nat
  width : Nat
  height : Nat
  empty : Bool

/-- The locals of the region `saveImage` when it hands over to the encoder:
the dimensions, the element count of the capture buffer, its contents and the
row-pointer table (offsets from `buffer.get()`). -/
structure Capture where
  width : Nat
  height : Nat
  buffer_size : Nat
  buffer : Mem
  rows : List Nat

/-- The row-pointer loop of the region `saveImage` (source lines 162-163): `n`
iterations are left, the next one fills `rows[k]`; `k*width*4` is a
`png_uint_32` product. -/
def saveRowsLoop (width : Nat) : Nat → Nat → List Nat → List Nat
  | 0, _, rows => rows
  | n + 1, k, rows => saveRowsLoop width n (k + 1) (rows.set k ((k * width * 4) % 4294967296))

/-- Source lines 148-163 of the region `saveImage`: choose the dimensions, read
the pixels back, set up the row pointers. `readPixels` is
`FBSurface::readPixels(buffer, pitch, rect)`. -/
def captureRegion (readPixels : FBSurface → Mem → Nat → Rect → Mem) (surface : FBSurface)
    (rect : Rect) : Capture :=
  let width := if rect.empty then surface.width else rect.width
  let height := if rect.empty then surface.height else rect.height
  let buffer_size := (width * height * 4) % 4294967296
  let buffer := readPixels surface Mem.zero width rect
  let rows := saveRowsLoop width height 0 (List.replicate height 0)
  ⟨width, height, buffer_size, buffer, rows⟩

/-- The member `PNGLibrary::saveImage(filename, surface, rect, comments)`;
`is_open` tells whether the output file could be created. -/
def saveImageRegion (readPixels : FBSurface → Mem → Nat → Rect → Mem) (is_open : Bool)
    (env : SaveEnv) (surface : FBSurface) (rect : Rect) (comments : VariantList) : SaveResult :=
  if !is_open then ⟨.threw "ERROR: Couldn't create snapshot file", []⟩
  else
    let c := captureRegion readPixels surface rect
    saveImage env c.rows c.width c.height comments

/-! ## The read callback -/

/-- The standard input file stream as `png_read_data` uses it: the bytes of the
file, the read position and the two state bits an unformatted read can set. The
exception mask is the default one (no state bit throws); `loadImage` never
changes it. -/
structure IFStream where
  data : List Nat
  pos : Nat
  failbit : Bool
  eofbit : Bool
deriving DecidableEq, Repr

/-- The call `in.read(area, size)` of the standard library: nothing is read from
a stream that is not good; otherwise bytes are copied until `size` are stored or
the end of the file is met, which sets `failbit` and `eofbit`. -/
def IFStream.read (s : IFStream) (area : List Nat) (size : Nat) : IFStream × List Nat :=
  if s.failbit ∨ s.eofbit then ({ s with failbit := true }, area)
  else
    let got := (s.data.drop s.pos).take size
    let area := got ++ area.drop got.length
    if got.length < size then
      ({ s with pos := s.pos + got.length, failbit := true, eofbit := true }, area)
    else ({ s with pos := s.pos + got.length }, area)

/-- The callback `PNGLibrary::png_read_data(ctx, area, size)`: how it ends, the
stream and the caller's buffer after it. -/
def png_read_data (io_ptr : IFStream) (area : List Nat) (size : Nat) :
    Exit × IFStream × List Nat :=
  let r := io_ptr.read area size
  (.returned, r.1, r.2)

/-! ## Instances of the collaborators used in the worked examples -/

/-- A pixel mapping used in examples: the triple packed as 0xRRGGBB. -/
def packRGB (r g b : Nat) : Nat := r * 65536 + g * 256 + b

/-- A resize used in examples: the surface becomes exactly `w` by `h`, with
rows `w` pixels apart and cleared pixels. -/
def resizeExact (s : FBSurface) (w h : Nat) : FBSurface :=
  { s with width := w, height := h, pitch := w, pixels := Mem.zero }

/-- A 4 by 4 cleared surface. -/
def blankSurface : FBSurface := ⟨4, 4, 4, 0, 0, 0, 0, Mem.zero⟩

/-- A load during which the codec rejects the header. -/
def LoadEnv.badHeader : LoadEnv :=
  ⟨true, true, true, .error "Not a PNG file", Heap.plenty, [], .ok (), .ok ()⟩

/-- A load of a 1 by 1 greyscale image. -/
def LoadEnv.grey : LoadEnv :=
  ⟨true, true, true, .ok ⟨1, 1, 8, 0, 0⟩, Heap.plenty, [], .ok (), .ok ()⟩

/-- A save during which the codec reports a write error in `png_write_image`. -/
def SaveEnv.writeFails : SaveEnv :=
  ⟨true, true, .ok (), .ok (), .error "Write Error", .ok ()⟩

/-- A save during which the codec raises nothing. -/
def SaveEnv.fine : SaveEnv := ⟨true, true, .ok (), .ok (), .ok (), .ok ()⟩

/-- The cache owns storage whenever it records a capacity: true of the initial
`ReadInfo` and kept by every `allocateStorage` call that returns true. -/
def CacheOk (ri : ReadInfoType) : Prop :=
  (0 < ri.buffer_size → ri.buffer.isSome = true) ∧
    (0 < ri.row_size → ri.row_pointers.isSome = true)

/-! ## The codec on the write side and the written file -/

/-- Modelled from the spec: the codec's channel normalisation of one 4-byte
sample, which is outside the repository (section 4.4 of the spec): swap the
alpha position to the end, discard the now-trailing filler byte, reverse the
blue/red order; each step only when the corresponding transformation was
requested. -/
def normalise (swap_alpha filler bgr : Bool) (px : List Nat) : List Nat :=
  let px := if swap_alpha then px.drop 1 ++ px.take 1 else px
  let px := if filler then px.take 3 else px
  if bgr then px.reverse else px

/-- Modelled from the spec: the bytes the codec encodes for one row of `n`
pixels read from offset `p` of the caller's pixel memory. -/
def encodeRow (swap_alpha filler bgr : Bool) (mem : Mem) : Nat → Nat → List Nat
  | 0, _ => []
  | n + 1, p =>
    normalise swap_alpha filler bgr [mem p, mem (p + 1), mem (p + 2), mem (p + 3)]
      ++ encodeRow swap_alpha filler bgr mem n (p + 4)

/-- Modelled from the spec: the state of the codec during a save, and with it
the content of the file it writes: declared dimensions, text entries, requested
transformations, encoded rows. Compression and chunk framing are lossless and
left out. -/
structure Encoder where
  width : Nat
  height : Nat
  text : List png_text
  swap_alpha : Bool
  filler : Bool
  bgr : Bool
  rows : List (List Nat)

/-- Modelled from the spec: the effect of one call of a save on the codec;
`mem` is the pixel memory the row pointers of `png_write_image` point into. A
text registration with a count of 0 or less adds nothing. -/
def Encoder.step (mem : Mem) (e : Encoder) : Event → Encoder
  | .set_IHDR w h _ _ _ _ _ => { e with width := w, height := h }
  | .set_text text_ptr num_text => { e with text := e.text ++ text_ptr.take num_text.toNat }
  | .set_swap_alpha => { e with swap_alpha := true }
  | .set_filler _ _ => { e with filler := true }
  | .set_bgr => { e with bgr := true }
  | .write_image rows =>
    let encoded := (rows.take e.height).map (encodeRow e.swap_alpha e.filler e.bgr mem e.width)
    { e with rows := encoded }
  | _ => e

/-- Modelled from the spec: the file the codec has written after the calls of
`trace`. -/
def png_encode (mem : Mem) (trace : List Event) : Encoder :=
  trace.foldl (Encoder.step mem) ⟨0, 0, [], false, false, false, []⟩

/-- Modelled from the spec: what the collaborators answer when `loadImage`
reads an intact file written by the codec: the header is the declared one
(8-bit RGB), the decoded rows are the encoded ones. -/
def LoadEnv.ofFile (heap : Heap) (file : Encoder) : LoadEnv :=
  ⟨true, true, true, .ok ⟨file.width, file.height, 8, PNG_COLOR_TYPE_RGB, PNG_INTERLACE_NONE⟩,
    heap, file.rows, .ok (), .ok ()⟩

/-- Save a pixel memory through the stream-level `saveImage`, then load the
file the codec wrote with `loadImage`. -/
def saveThenLoad (mapRGB : Nat → Nat → Nat → Nat) (resize : FBSurface → Nat → Nat → FBSurface)
    (heap : Heap) (env : SaveEnv) (mem : Mem) (rows : List Nat) (width height : Nat)
    (comments : VariantList) (ri : ReadInfoType) (surface : FBSurface) : LoadResult :=
  loadImage mapRGB resize
    (LoadEnv.ofFile heap (png_encode mem (saveImage env rows width height comments).trace))
    ri surface

/-- A codec call came back without raising. -/
def Step.isOk {α : Type} : Step α → Bool
  | .ok _ => true
  | _ => false

/-! ## The memory accesses of the conversion loop -/

/-- One access of the conversion loop of `loadImagetoSurface`: a byte read at
an offset from `ReadInfo.buffer.get()`, or a pixel write at a word offset from
the base pointer of the surface. -/
inductive Access where
  | read (i : Nat)
  | write (j : Nat)
deriving DecidableEq, Repr

/-- The accesses of the inner loop of `loadImagetoSurface` (source lines
283-284), in program order: each iteration reads `*i_ptr`, `*(i_ptr+1)`,
`*(i_ptr+2)` and writes `*s_ptr`. -/
def convertRowAccesses : Nat → Nat → Nat → List Access
  | 0, _, _ => []
  | n + 1, i_ptr, s_ptr =>
    [.read i_ptr, .read (i_ptr + 1), .read (i_ptr + 2), .write s_ptr]
      ++ convertRowAccesses n (i_ptr + 3) (s_ptr + 1)

/-- The accesses of the outer loop of `loadImagetoSurface` (source lines
279-285), in program order. -/
def convertRowsAccesses (width i_pitch s_pitch : Nat) : Nat → Nat → Nat → List Access
  | 0, _, _ => []
  | n + 1, i_buf, s_buf =>
    convertRowAccesses width i_buf s_buf
      ++ convertRowsAccesses width i_pitch s_pitch n (i_buf + i_pitch) (s_buf + s_pitch)

/-- The accesses `loadImagetoSurface(surface)` makes to the decode buffer and
to the pixels of the surface, in program order. -/
def loadImagetoSurfaceAccesses (resize : FBSurface → Nat → Nat → FBSurface) (ri : ReadInfoType)
    (surface : FBSurface) : List Access :=
  let s := prepareSurface resize ri surface
  convertRowsAccesses ri.width ri.pitch s.pitch ri.height 0 0

/-! ## Lemmas on the control flow of loadImage -/

theorem formatCheck_calls {c : Int} {calls : List Event} (h : formatCheck c = .ok calls) :
    calls = [] ∨ calls = [.set_strip_alpha] ∨ calls = [.set_palette_to_rgb] := by
  unfold formatCheck at h
  split_ifs at h <;> simp_all

theorem formatCheck_ok_iff (c : Int) :
    (∃ calls, formatCheck c = .ok calls) ↔
      c = PNG_COLOR_TYPE_RGB ∨ c = PNG_COLOR_TYPE_RGBA ∨ c = PNG_COLOR_TYPE_PALETTE := by
  unfold formatCheck
  simp only [PNG_COLOR_TYPE_RGB, PNG_COLOR_TYPE_RGBA, PNG_COLOR_TYPE_PALETTE,
    PNG_COLOR_TYPE_GRAY, PNG_COLOR_TYPE_GRAY_ALPHA]
  split_ifs <;> simp_all
  omega

/-! ## C1: release of the codec context -/

/-- C1, evaluated where it fails: when the codec raises through `png_user_error`
during the header read of `loadImage`, or during `png_write_image` of the
stream-level `saveImage`, the exception leaves the call after the context was
created and `png_destroy_read_struct` / `png_destroy_write_struct` is never
executed. -/
theorem codec_error_skips_context_release (mapRGB : Nat → Nat → Nat → Nat)
    (resize : FBSurface → Nat → Nat → FBSurface) (ri : ReadInfoType) (surface : FBSurface) :
    (loadImage mapRGB resize LoadEnv.badHeader ri surface).exit
        = .threw "PNGLibrary error: Not a PNG file" ∧
      (loadImage mapRGB resize LoadEnv.badHeader ri surface).trace
        = [.create_read_struct, .create_info_struct, .set_read_fn, .read_info] ∧
      (saveImage SaveEnv.writeFails [0] 1 1 []).exit = .threw "PNGLibrary error: Write Error" ∧
      Event.create_write_struct ∈ (saveImage SaveEnv.writeFails [0] 1 1 []).trace ∧
      Event.destroy_write_struct ∉ (saveImage SaveEnv.writeFails [0] 1 1 []).trace := by
  refine ⟨?_, ?_, ?_, ?_, ?_⟩
  · simp [loadImage, LoadEnv.badHeader, png_user_error]
  · simp [loadImage, LoadEnv.badHeader]
  · simp [saveImage, SaveEnv.writeFails, png_user_error]
  · simp [saveImage, SaveEnv.writeFails, writeComments]
  · simp [saveImage, SaveEnv.writeFails, writeComments]

/-! ## C2: the read callback on a short read -/

/-- C2, refuted as stated: asked for 4 bytes when 2 remain, `png_read_data`
returns normally; the caller's buffer holds the 2 bytes followed by its old
contents and only the state bits of the stream record the short read. -/
theorem png_read_data_returns_on_short_read :
    png_read_data ⟨[1, 2], 0, false, false⟩ [9, 9, 9, 9] 4
      = (.returned, ⟨[1, 2], 2, true, true⟩, [1, 2, 9, 9]) := by
  decide

/-- C2, amended: on a good stream with fewer than `size` bytes left,
`png_read_data` returns normally, having copied the bytes that were left to the
front of the caller's buffer, kept the rest of the buffer and set the fail and
eof bits of the stream; and a load during which the codec raises (header read,
image read or read end) does not return normally and never reaches
`loadImagetoSurface`. -/
theorem png_read_data_short_read (io_ptr : IFStream) (area : List Nat) (size : Nat)
    (mapRGB : Nat → Nat → Nat → Nat) (resize : FBSurface → Nat → Nat → FBSurface)
    (env : LoadEnv) (ri : ReadInfoType) (surface : FBSurface)
    (hgood : io_ptr.failbit = false ∧ io_ptr.eofbit = false)
    (hshort : io_ptr.data.length - io_ptr.pos < size)
    (hraise : (env.read_info.isOk && env.read_image.isOk && env.read_end.isOk) = false) :
    (png_read_data io_ptr area size).1 = .returned ∧
      (png_read_data io_ptr area size).2.2
        = io_ptr.data.drop io_ptr.pos ++ area.drop (io_ptr.data.length - io_ptr.pos) ∧
      (png_read_data io_ptr area size).2.1.failbit = true ∧
      (png_read_data io_ptr area size).2.1.eofbit = true ∧
      (loadImage mapRGB resize env ri surface).exit ≠ .returned ∧
      Event.loadImagetoSurface ∉ (loadImage mapRGB resize env ri surface).trace := by
  obtain ⟨hf, he⟩ := hgood
  have hlen : ((io_ptr.data.drop io_ptr.pos).take size).length
      = io_ptr.data.length - io_ptr.pos := by
    simp only [List.length_take, List.length_drop]; omega
  have htake : (io_ptr.data.drop io_ptr.pos).take size = io_ptr.data.drop io_ptr.pos := by
    apply List.take_of_length_le
    simp only [List.length_drop]; omega
  refine ⟨rfl, ?_, ?_, ?_, ?_, ?_⟩
  · simp only [png_read_data, IFStream.read, hf, he, hlen, hshort]
    simp [htake]
  · simp only [png_read_data, IFStream.read, hf, he, hlen, hshort]
    simp
  · simp only [png_read_data, IFStream.read, hf, he, hlen, hshort]
    simp
  · unfold loadImage
    simp only [loadImage_done, png_user_error, png_user_warn]
    repeat' split
    all_goals simp_all [Step.isOk]
  · unfold loadImage
    simp only [loadImage_done, png_user_error, png_user_warn]
    repeat' split
    all_goals first
      | (have hc := formatCheck_calls (by assumption)
         rcases hc with h | h | h <;> simp_all [Step.isOk])
      | simp_all [Step.isOk]

/-- A stream with 2 bytes left, asked for 4, and a load whose header the codec
rejects: the amended C2 applies. -/
theorem png_read_data_short_read_witness :
    ((⟨[1, 2], 0, false, false⟩ : IFStream).failbit = false ∧
        (⟨[1, 2], 0, false, false⟩ : IFStream).eofbit = false) ∧
      [1, 2].length - 0 < 4 ∧
      (LoadEnv.badHeader.read_info.isOk && LoadEnv.badHeader.read_image.isOk &&
        LoadEnv.badHeader.read_end.isOk) = false ∧
      (png_read_data ⟨[1, 2], 0, false, false⟩ [9, 9, 9, 9] 4).1 = .returned ∧
      (png_read_data ⟨[1, 2], 0, false, false⟩ [9, 9, 9, 9] 4).2.2 = [1, 2, 9, 9] ∧
      (loadImage packRGB resizeExact LoadEnv.badHeader ReadInfo blankSurface).exit
        ≠ .returned :=
  have h := png_read_data_short_read ⟨[1, 2], 0, false, false⟩ [9, 9, 9, 9] 4 packRGB
    resizeExact LoadEnv.badHeader ReadInfo blankSurface ⟨rfl, rfl⟩ (by decide) (by decide)
  ⟨⟨rfl, rfl⟩, by decide, by decide, h.1, h.2.1, h.2.2.2.2.1⟩

/-! ## C3: a failed load leaves the surface alone -/

/-- C3: a `loadImage` call that does not return normally, whatever step failed,
leaves the destination surface exactly as it was, and `loadImagetoSurface` was
not reached. -/
theorem loadImage_failure_keeps_surface (mapRGB : Nat → Nat → Nat → Nat)
    (resize : FBSurface → Nat → Nat → FBSurface) (env : LoadEnv) (ri : ReadInfoType)
    (surface : FBSurface)
    (hfail : (loadImage mapRGB resize env ri surface).exit ≠ .returned) :
    (loadImage mapRGB resize env ri surface).surface = surface ∧
      Event.loadImagetoSurface ∉ (loadImage mapRGB resize env ri surface).trace := by
  unfold loadImage at hfail ⊢
  simp only [loadImage_done, png_user_error, png_user_warn] at hfail ⊢
  repeat' split
  all_goals first
    | (have hc := formatCheck_calls (by assumption)
       rcases hc with h | h | h <;> simp_all)
    | simp_all

/-- The load of a greyscale image fails and the surface is as before. -/
theorem loadImage_failure_keeps_surface_witness :
    (loadImage packRGB resizeExact LoadEnv.grey ReadInfo blankSurface).exit ≠ .returned ∧
      (loadImage packRGB resizeExact LoadEnv.grey ReadInfo blankSurface).surface
        = blankSurface ∧
      Event.loadImagetoSurface ∉
        (loadImage packRGB resizeExact LoadEnv.grey ReadInfo blankSurface).trace :=
  have hfail : (loadImage packRGB resizeExact LoadEnv.grey ReadInfo blankSurface).exit
      ≠ .returned := by
    simp [loadImage, LoadEnv.grey, formatCheck, loadImage_done, PNG_COLOR_TYPE_RGBA,
      PNG_COLOR_TYPE_GRAY]
  ⟨hfail, loadImage_failure_keeps_surface packRGB resizeExact LoadEnv.grey ReadInfo
    blankSurface hfail⟩

/-! ## C4: the format check -/

/-- C4: once the header has been read with colour type `c`, the load goes on to
`allocateStorage` exactly when `c` is RGB, RGBA or PALETTE; for GRAY and
GRAY_ALPHA it fails with "Greyscale PNG images not supported", for every other
`c` with "Unknown format in PNG image", and in both failing cases the surface
and the decode buffer cache are what they were. -/
theorem loadImage_format_check (mapRGB : Nat → Nat → Nat → Nat)
    (resize : FBSurface → Nat → Nat → FBSurface) (env : LoadEnv) (ri : ReadInfoType)
    (surface : FBSurface) (hdr : IHDR)
    (hopen : env.is_open = true) (hctx : env.create_read_struct = true)
    (hinfo : env.create_info_struct = true) (hread : env.read_info = .ok hdr) :
    (Event.allocateStorage hdr.width hdr.height ∈ (loadImage mapRGB resize env ri surface).trace
        ↔ hdr.color_type = PNG_COLOR_TYPE_RGB ∨ hdr.color_type = PNG_COLOR_TYPE_RGBA ∨
          hdr.color_type = PNG_COLOR_TYPE_PALETTE) ∧
      (hdr.color_type = PNG_COLOR_TYPE_GRAY ∨ hdr.color_type = PNG_COLOR_TYPE_GRAY_ALPHA →
        (loadImage mapRGB resize env ri surface).exit
            = .threw "Greyscale PNG images not supported" ∧
          (loadImage mapRGB resize env ri surface).surface = surface ∧
          (loadImage mapRGB resize env ri surface).readInfo = ri) ∧
      (hdr.color_type ≠ PNG_COLOR_TYPE_RGB → hdr.color_type ≠ PNG_COLOR_TYPE_RGBA →
        hdr.color_type ≠ PNG_COLOR_TYPE_PALETTE → hdr.color_type ≠ PNG_COLOR_TYPE_GRAY →
        hdr.color_type ≠ PNG_COLOR_TYPE_GRAY_ALPHA →
        (loadImage mapRGB resize env ri surface).exit = .threw "Unknown format in PNG image" ∧
          (loadImage mapRGB resize env ri surface).surface = surface ∧
          (loadImage mapRGB resize env ri surface).readInfo = ri) := by
  refine ⟨?_, ?_, ?_⟩
  · rw [← formatCheck_ok_iff]
    unfold loadImage
    simp only [hopen, hctx, hinfo, hread, loadImage_done, png_user_error, png_user_warn]
    cases hc : formatCheck hdr.color_type with
    | error s => simp
    | ok calls =>
      simp only [exists_apply_eq_apply]
      repeat' split
      all_goals simp_all
  · intro hgrey
    have hc : formatCheck hdr.color_type = .error "Greyscale PNG images not supported" := by
      unfold formatCheck
      simp only [PNG_COLOR_TYPE_RGBA, PNG_COLOR_TYPE_GRAY, PNG_COLOR_TYPE_GRAY_ALPHA] at hgrey ⊢
      rcases hgrey with h | h <;> simp [h]
    unfold loadImage
    simp [hopen, hctx, hinfo, hread, hc, loadImage_done]
  · intro h1 h2 h3 h4 h5
    have hc : formatCheck hdr.color_type = .error "Unknown format in PNG image" := by
      unfold formatCheck
      simp [h1, h2, h3, h4, h5]
    unfold loadImage
    simp [hopen, hctx, hinfo, hread, hc, loadImage_done]

/-- The header of a 1 by 1 greyscale image: the load stops at the format check
with the greyscale message. -/
theorem loadImage_format_check_witness :
    LoadEnv.grey.is_open = true ∧ LoadEnv.grey.create_read_struct = true ∧
      LoadEnv.grey.create_info_struct = true ∧ LoadEnv.grey.read_info = .ok ⟨1, 1, 8, 0, 0⟩ ∧
      (loadImage packRGB resizeExact LoadEnv.grey ReadInfo blankSurface).exit
        = .threw "Greyscale PNG images not supported" ∧
      (loadImage packRGB resizeExact LoadEnv.grey ReadInfo blankSurface).surface
        = blankSurface :=
  have h := loadImage_format_check packRGB resizeExact LoadEnv.grey ReadInfo blankSurface
    ⟨1, 1, 8, 0, 0⟩ rfl rfl rfl rfl
  have hg := h.2.1 (Or.inl rfl)
  ⟨rfl, rfl, rfl, rfl, hg.1, hg.2.1⟩

/-! ## C5: the pixel conversion -/

theorem convertRow_apply (mapRGB : Nat → Nat → Nat → Nat) (buf : Option Mem) :
    ∀ (n i_ptr s_ptr : Nat) (px : Mem) (j : Nat),
      convertRow mapRGB buf n i_ptr s_ptr px j =
        if s_ptr ≤ j ∧ j < s_ptr + n then
          mapRGB (deref buf (i_ptr + 3 * (j - s_ptr))) (deref buf (i_ptr + 3 * (j - s_ptr) + 1))
            (deref buf (i_ptr + 3 * (j - s_ptr) + 2))
        else px j := by
  intro n
  induction n with
  | zero =>
    intro i_ptr s_ptr px j
    have h0 : ¬ (s_ptr ≤ j ∧ j < s_ptr + 0) := by omega
    rw [convertRow, if_neg h0]
  | succ n ih =>
    intro i_ptr s_ptr px j
    rw [convertRow, ih]
    by_cases h1 : s_ptr + 1 ≤ j ∧ j < s_ptr + 1 + n
    · have h2 : s_ptr ≤ j ∧ j < s_ptr + (n + 1) := by omega
      have h3 : i_ptr + 3 + 3 * (j - (s_ptr + 1)) = i_ptr + 3 * (j - s_ptr) := by omega
      rw [if_pos h1, if_pos h2, h3]
    · rw [if_neg h1]
      by_cases h4 : j = s_ptr
      · have h2 : s_ptr ≤ j ∧ j < s_ptr + (n + 1) := by omega
        rw [if_pos h2]
        subst h4
        simp [Mem.store]
      · have h2 : ¬ (s_ptr ≤ j ∧ j < s_ptr + (n + 1)) := by omega
        rw [if_neg h2]
        simp [Mem.store, h4]

theorem convertRows_below (mapRGB : Nat → Nat → Nat → Nat) (buf : Option Mem)
    (width i_pitch s_pitch : Nat) :
    ∀ (n i_buf s_buf : Nat) (px : Mem) (j : Nat), j < s_buf →
      convertRows mapRGB buf width i_pitch s_pitch n i_buf s_buf px j = px j := by
  intro n
  induction n with
  | zero => intro i_buf s_buf px j _; rfl
  | succ n ih =>
    intro i_buf s_buf px j hj
    rw [convertRows, ih _ _ _ _ (by omega), convertRow_apply]
    have : ¬ (s_buf ≤ j ∧ j < s_buf + width) := by omega
    rw [if_neg this]

theorem convertRows_apply (mapRGB : Nat → Nat → Nat → Nat) (buf : Option Mem)
    (width i_pitch s_pitch : Nat) (hpitch : width ≤ s_pitch) :
    ∀ (n i_buf s_buf : Nat) (px : Mem) (r c : Nat), r < n → c < width →
      convertRows mapRGB buf width i_pitch s_pitch n i_buf s_buf px (s_buf + r * s_pitch + c) =
        mapRGB (deref buf (i_buf + r * i_pitch + 3 * c))
          (deref buf (i_buf + r * i_pitch + 3 * c + 1))
          (deref buf (i_buf + r * i_pitch + 3 * c + 2)) := by
  intro n
  induction n with
  | zero => intro _ _ _ r _ hr; omega
  | succ n ih =>
    intro i_buf s_buf px r c hr hc
    rw [convertRows]
    cases r with
    | zero =>
      rw [convertRows_below _ _ _ _ _ _ _ _ _ _ (by omega), convertRow_apply]
      have h1 : s_buf ≤ s_buf + 0 * s_pitch + c ∧ s_buf + 0 * s_pitch + c < s_buf + width := by
        omega
      have h2 : s_buf + 0 * s_pitch + c - s_buf = c := by omega
      rw [if_pos h1, h2]
      simp
    | succ r =>
      have h1 : s_buf + (r + 1) * s_pitch + c = (s_buf + s_pitch) + r * s_pitch + c := by ring
      have h2 : i_buf + (r + 1) * i_pitch = (i_buf + i_pitch) + r * i_pitch := by ring
      rw [h1, h2]
      exact ih _ _ _ r c (by omega) hc

theorem loadImagetoSurface_apply (mapRGB : Nat → Nat → Nat → Nat)
    (resize : FBSurface → Nat → Nat → FBSurface) (ri : ReadInfoType) (surface : FBSurface)
    (r c : Nat) (hr : r < ri.height) (hc : c < ri.width)
    (hpitch : ri.width ≤ (prepareSurface resize ri surface).pitch) :
    (loadImagetoSurface mapRGB resize ri surface).pixels
        (r * (loadImagetoSurface mapRGB resize ri surface).pitch + c) =
      mapRGB (deref ri.buffer (r * ri.pitch + 3 * c)) (deref ri.buffer (r * ri.pitch + 3 * c + 1))
        (deref ri.buffer (r * ri.pitch + 3 * c + 2)) := by
  have h := convertRows_apply mapRGB ri.buffer ri.width ri.pitch
    (prepareSurface resize ri surface).pitch hpitch ri.height 0 0
    (prepareSurface resize ri surface).pixels r c hr hc
  simp only [Nat.zero_add] at h
  exact h

theorem prepareSurface_pitch (resize : FBSurface → Nat → Nat → FBSurface) (ri : ReadInfoType)
    (surface : FBSurface) :
    (prepareSurface resize ri surface).pitch = surface.pitch ∨
      (prepareSurface resize ri surface).pitch = (resize surface ri.width ri.height).pitch := by
  unfold prepareSurface FBSurface.setSrcSize FBSurface.setSrcPos
  by_cases h : ri.width > surface.width ∨ ri.height > surface.height
  · right; simp [h]
  · left; simp [h]

/-- C5: after `loadImagetoSurface`, the surface word at row `r`, column `c`
(index `r * pitch + c` from the base pointer) is `mapRGB` of the three bytes at
`r * ReadInfo.pitch + 3c` of the decode buffer, whatever the surface held
before; this for every row and column of the image, on a surface whose rows are
at least the image width apart. -/
theorem loadImagetoSurface_pixel (mapRGB : Nat → Nat → Nat → Nat)
    (resize : FBSurface → Nat → Nat → FBSurface) (ri : ReadInfoType) (surface : FBSurface)
    (r c : Nat) (hr : r < ri.height) (hc : c < ri.width)
    (hpitch : ri.width ≤ (prepareSurface resize ri surface).pitch) :
    (loadImagetoSurface mapRGB resize ri surface).pixels
        (r * (loadImagetoSurface mapRGB resize ri surface).pitch + c) =
      mapRGB (deref ri.buffer (r * ri.pitch + 3 * c)) (deref ri.buffer (r * ri.pitch + 3 * c + 1))
        (deref ri.buffer (r * ri.pitch + 3 * c + 2)) := by
  exact loadImagetoSurface_apply mapRGB resize ri surface r c hr hc hpitch

/-- A 2 by 2 image in a buffer whose byte `i` is `i`, converted onto a 4 by 4
surface: pixel (1, 1) is built from bytes 9, 10, 11. -/
theorem loadImagetoSurface_pixel_witness :
    (1 : Nat) < (⟨some id, none, 2, 2, 6, 12, 2⟩ : ReadInfoType).height ∧
      (1 : Nat) < (⟨some id, none, 2, 2, 6, 12, 2⟩ : ReadInfoType).width ∧
      (⟨some id, none, 2, 2, 6, 12, 2⟩ : ReadInfoType).width
        ≤ (prepareSurface resizeExact ⟨some id, none, 2, 2, 6, 12, 2⟩ blankSurface).pitch ∧
      (loadImagetoSurface packRGB resizeExact ⟨some id, none, 2, 2, 6, 12, 2⟩ blankSurface).pixels
        (1 * 4 + 1) = packRGB 9 10 11 :=
  ⟨by decide, by decide, by decide,
    loadImagetoSurface_pixel packRGB resizeExact ⟨some id, none, 2, 2, 6, 12, 2⟩ blankSurface 1 1
      (by decide) (by decide) (by decide)⟩

/-! ## The decode buffer cache: what `allocateStorage` guarantees -/

theorem allocateStorage_capacity_mono (heap : Heap) (ri : ReadInfoType) (w h : Nat) :
    ri.buffer_size ≤ (allocateStorage heap ri w h).2.buffer_size ∧
      ri.row_size ≤ (allocateStorage heap ri w h).2.row_size := by
  unfold allocateStorage make_unique
  by_cases h1 : (w * h * 3) % 4294967296 > ri.buffer_size <;>
    by_cases h2 : heap.bytes_ok ((w * h * 3) % 4294967296) = true <;>
    by_cases h3 : h > ri.row_size <;>
    by_cases h4 : heap.rows_ok h = true <;>
    simp [h1, h2, h3, h4] <;> omega

theorem allocateStorage_ok (heap : Heap) (ri : ReadInfoType) (w h : Nat)
    (hok : (allocateStorage heap ri w h).1 = true) :
    (allocateStorage heap ri w h).2.width = w ∧
      (allocateStorage heap ri w h).2.height = h ∧
      (allocateStorage heap ri w h).2.pitch = (w * 3) % 4294967296 ∧
      (w * h * 3) % 4294967296 ≤ (allocateStorage heap ri w h).2.buffer_size ∧
      h ≤ (allocateStorage heap ri w h).2.row_size := by
  unfold allocateStorage make_unique at hok ⊢
  by_cases h1 : (w * h * 3) % 4294967296 > ri.buffer_size <;>
    by_cases h2 : heap.bytes_ok ((w * h * 3) % 4294967296) = true <;>
    by_cases h3 : h > ri.row_size <;>
    by_cases h4 : heap.rows_ok h = true <;>
    simp [h1, h2, h3, h4] at hok ⊢ <;> omega

theorem rowPointerLoop_apply (pitch : Nat) :
    ∀ (n irow offset : Nat) (rows : Mem) (j : Nat), offset < 4294967296 →
      rowPointerLoop pitch n irow offset rows j =
        if irow ≤ j ∧ j < irow + n then (offset + (j - irow) * pitch) % 4294967296
        else rows j := by
  intro n
  induction n with
  | zero =>
    intro irow offset rows j _
    have h0 : ¬ (irow ≤ j ∧ j < irow + 0) := by omega
    rw [rowPointerLoop, if_neg h0]
  | succ n ih =>
    intro irow offset rows j hoff
    rw [rowPointerLoop, ih _ _ _ _ (Nat.mod_lt _ (by norm_num))]
    by_cases h1 : irow + 1 ≤ j ∧ j < irow + 1 + n
    · have h2 : irow ≤ j ∧ j < irow + (n + 1) := by omega
      rw [if_pos h1, if_pos h2, Nat.mod_add_mod]
      have h3 : j - irow = (j - (irow + 1)) + 1 := by omega
      rw [h3, Nat.add_mul, Nat.one_mul]
      congr 1
      omega
    · rw [if_neg h1]
      by_cases h4 : j = irow
      · have h2 : irow ≤ j ∧ j < irow + (n + 1) := by omega
        rw [if_pos h2]
        subst h4
        simp [Mem.store, Nat.mod_eq_of_lt hoff]
      · have h2 : ¬ (irow ≤ j ∧ j < irow + (n + 1)) := by omega
        rw [if_neg h2]
        simp [Mem.store, h4]

theorem setRowPointers_apply (ri : ReadInfoType) (m : Mem) (hrows : ri.row_pointers = some m)
    (i : Nat) (hi : i < ri.height) :
    deref (setRowPointers ri).row_pointers i = (i * ri.pitch) % 4294967296 := by
  simp only [setRowPointers, hrows, Option.map, deref]
  rw [rowPointerLoop_apply _ _ _ _ _ _ (by norm_num)]
  have h : 0 ≤ i ∧ i < 0 + ri.height := by omega
  rw [if_pos h]
  simp

theorem cacheOk_initial : CacheOk ReadInfo := by
  constructor <;> intro h <;> exact absurd h (by decide)

theorem capacity_of_fits (heap : Heap) (ri : ReadInfoType) (w h : Nat)
    (hok : (allocateStorage heap ri w h).1 = true) (hfit : w * h * 3 < 4294967296) :
    w * h * 3 ≤ (allocateStorage heap ri w h).2.buffer_size ∧
      h ≤ (allocateStorage heap ri w h).2.row_size := by
  obtain ⟨-, -, -, hcap, hrs⟩ := allocateStorage_ok heap ri w h hok
  rw [Nat.mod_eq_of_lt hfit] at hcap
  exact ⟨hcap, hrs⟩

theorem allocateStorage_cacheOk (heap : Heap) (ri : ReadInfoType) (w h : Nat)
    (hcache : CacheOk ri) (hok : (allocateStorage heap ri w h).1 = true) :
    CacheOk (allocateStorage heap ri w h).2 := by
  obtain ⟨hb, hr⟩ := hcache
  unfold CacheOk
  unfold allocateStorage make_unique at hok ⊢
  by_cases h1 : (w * h * 3) % 4294967296 > ri.buffer_size <;>
    by_cases h2 : heap.bytes_ok ((w * h * 3) % 4294967296) = true <;>
    by_cases h3 : h > ri.row_size <;>
    by_cases h4 : heap.rows_ok h = true <;>
    simp [h1, h2, h3, h4] at hok ⊢ <;> first | exact ⟨hb, hr⟩ | exact hb | exact hr

theorem rowPointers_of_fits (heap : Heap) (ri : ReadInfoType) (w h : Nat)
    (hcache : CacheOk ri) (hok : (allocateStorage heap ri w h).1 = true)
    (hfit : w * h * 3 < 4294967296) (i : Nat) (hi : i < h) :
    deref (setRowPointers (allocateStorage heap ri w h).2).row_pointers i = i * (w * 3) := by
  obtain ⟨-, hh, hpi, -, hrs⟩ := allocateStorage_ok heap ri w h hok
  obtain ⟨-, hcr⟩ := allocateStorage_cacheOk heap ri w h hcache hok
  obtain ⟨rp0, hrp0⟩ := Option.isSome_iff_exists.mp (hcr (by omega))
  have hw3 : w * 3 ≤ w * h * 3 :=
    Nat.mul_le_mul_right 3 (Nat.le_mul_of_pos_right w (by omega))
  rw [Nat.mod_eq_of_lt (by omega)] at hpi
  rw [setRowPointers_apply _ rp0 hrp0 i (by omega), hpi]
  have h1 : i * (w * 3) ≤ h * (w * 3) := Nat.mul_le_mul_right _ (by omega)
  have h2 : h * (w * 3) = w * h * 3 := by ring
  exact Nat.mod_eq_of_lt (by omega)

theorem allocateStorage_huge :
    allocateStorage Heap.plenty ReadInfo 65536 65536
      = (true, ⟨none, some Mem.zero, 65536, 65536, 196608, 0, 65536⟩) := by
  simp [allocateStorage, ReadInfo, Heap.plenty, make_unique]

/-! ## C6: the row pointers -/

/-- C6, evaluated where it fails: `allocateStorage(65536, 65536)` on the
initial cache succeeds, and after the row-pointer loop row pointer 21846 is
buffer base + 131072, not buffer base + 21846 * (65536 * 3) = base + 4295098368:
the `uInt32` offset of the loop has wrapped. -/
theorem rowPointer_wraps :
    (allocateStorage Heap.plenty ReadInfo 65536 65536).1 = true ∧
      deref (setRowPointers (allocateStorage Heap.plenty ReadInfo 65536 65536).2).row_pointers
        21846 = 131072 ∧
      21846 * (65536 * 3) = 4295098368 := by
  rw [allocateStorage_huge]
  refine ⟨rfl, ?_, by norm_num⟩
  rw [setRowPointers_apply _ Mem.zero rfl 21846 (by decide)]
  norm_num

/-! ## C7: the capacity of the cache -/

/-- C7, evaluated where it fails: `allocateStorage(65536, 65536)` on the
initial cache returns true and records the image as 65536 by 65536, yet the
recorded buffer capacity stays 0 and no buffer is allocated, while the image
needs 65536 * 65536 * 3 = 12884901888 bytes: the `uInt32` product
`w * h * 3` has wrapped to 0. -/
theorem capacity_wraps :
    (allocateStorage Heap.plenty ReadInfo 65536 65536).1 = true ∧
      (allocateStorage Heap.plenty ReadInfo 65536 65536).2.width = 65536 ∧
      (allocateStorage Heap.plenty ReadInfo 65536 65536).2.height = 65536 ∧
      (allocateStorage Heap.plenty ReadInfo 65536 65536).2.buffer_size = 0 ∧
      (allocateStorage Heap.plenty ReadInfo 65536 65536).2.buffer.isNone = true ∧
      65536 * 65536 * 3 = 12884901888 := by
  rw [allocateStorage_huge]
  exact ⟨rfl, rfl, rfl, rfl, rfl, by norm_num⟩

/-! ## C8: save, then load -/

theorem storeBytes_below : ∀ (bs : List Nat) (m : Mem) (off x : Nat), x < off →
    storeBytes m off bs x = m x := by
  intro bs
  induction bs with
  | nil => intro m off x _; rfl
  | cons b bs ih =>
    intro m off x hx
    rw [storeBytes, ih _ _ _ (by omega)]
    have hne : x ≠ off := by omega
    simp [Mem.store, hne]

theorem storeBytes_encodeRow (mem : Mem) : ∀ (n p off : Nat) (m : Mem) (c t : Nat),
    c < n → t < 3 →
      storeBytes m off (encodeRow true true true mem n p) (off + 3 * c + t)
        = mem (p + 4 * c + (3 - t)) := by
  intro n
  induction n with
  | zero => intro _ _ _ c _ hc; omega
  | succ n ih =>
    intro p off m c t hc ht
    have hrow : encodeRow true true true mem (n + 1) p
        = mem (p + 3) :: mem (p + 2) :: mem (p + 1) :: encodeRow true true true mem n (p + 4) := by
      simp [encodeRow, normalise]
    rw [hrow]
    simp only [storeBytes]
    cases c with
    | zero =>
      rw [storeBytes_below _ _ _ _ (by omega)]
      have h3 : t = 0 ∨ t = 1 ∨ t = 2 := by omega
      rcases h3 with h | h | h <;> subst h <;> simp [Mem.store]
      intro h
      omega
    | succ c =>
      have h1 : off + 3 * (c + 1) + t = (off + 1 + 1 + 1) + 3 * c + t := by omega
      have h2 : p + 4 * (c + 1) + (3 - t) = (p + 4) + 4 * c + (3 - t) := by omega
      rw [h1, h2]
      exact ih _ _ _ c t (by omega) ht

theorem png_read_image_below (rp : Mem) : ∀ (rows : List (List Nat)) (i : Nat) (m : Mem) (x : Nat),
    (∀ j, i ≤ j → j < i + rows.length → x < rp j) →
      png_read_image rp rows i m x = m x := by
  intro rows
  induction rows with
  | nil => intro i m x _; rfl
  | cons r rs ih =>
    intro i m x h
    rw [png_read_image, ih _ _ _ (fun j h1 h2 => h j (by omega) (by simp; omega))]
    exact storeBytes_below _ _ _ _ (h i (by omega) (by simp))

theorem png_read_image_apply (mem rp : Mem) (w : Nat) :
    ∀ (ps : List Nat) (i : Nat) (m : Mem) (k c t : Nat),
      (∀ j, i ≤ j → j < i + ps.length → rp j = j * (3 * w)) →
      k < ps.length → c < w → t < 3 →
      png_read_image rp (ps.map (encodeRow true true true mem w)) i m
          ((i + k) * (3 * w) + 3 * c + t)
        = mem (ps.getD k 0 + 4 * c + (3 - t)) := by
  intro ps
  induction ps with
  | nil => intro _ _ k _ _ _ hk; simp at hk
  | cons p ps ih =>
    intro i m k c t hrp hk hc ht
    rw [List.map_cons, png_read_image]
    cases k with
    | zero =>
      have h0 : (i + 0) * (3 * w) = i * (3 * w) := by rw [Nat.add_zero]
      rw [h0, png_read_image_below]
      · rw [hrp i (by omega) (by simp)]
        rw [storeBytes_encodeRow mem w p _ _ c t hc ht]
        simp
      · intro j h1 h2
        rw [hrp j (by omega) (by simp at h2 ⊢; omega)]
        have h3 : (i + 1) * (3 * w) ≤ j * (3 * w) := Nat.mul_le_mul_right _ h1
        have h4 : (i + 1) * (3 * w) = i * (3 * w) + 3 * w := by ring
        omega
    | succ k =>
      have h1 : (i + (k + 1)) * (3 * w) = (i + 1 + k) * (3 * w) := by ring
      rw [h1, ih (i + 1) _ k c t (fun j h2 h3 => hrp j (by omega) (by simp at h3 ⊢; omega))
        (by simpa using hk) hc ht]
      simp

theorem saveImage_returned (env : SaveEnv) (rows : List Nat) (width height : Nat)
    (comments : VariantList) (hsave : (saveImage env rows width height comments).exit = .returned) :
    (saveImage env rows width height comments).trace =
      [.create_write_struct, .create_info_struct, .set_write_fn,
        .set_IHDR width height 8 PNG_COLOR_TYPE_RGB PNG_INTERLACE_NONE
          PNG_COMPRESSION_TYPE_DEFAULT PNG_FILTER_TYPE_DEFAULT]
        ++ writeComments comments ++
        [.write_info, .set_packing, .set_swap_alpha, .set_filler 0 PNG_FILLER_AFTER, .set_bgr,
          .write_image rows, .write_end, .destroy_write_struct] := by
  unfold saveImage at hsave ⊢
  simp only [saveImage_done, png_user_error, png_user_warn] at hsave ⊢
  repeat' split
  all_goals simp_all

theorem png_encode_saved (mem : Mem) (rows : List Nat) (width height : Nat)
    (comments : VariantList) :
    ∃ text, png_encode mem
      ([.create_write_struct, .create_info_struct, .set_write_fn,
        .set_IHDR width height 8 PNG_COLOR_TYPE_RGB PNG_INTERLACE_NONE
          PNG_COMPRESSION_TYPE_DEFAULT PNG_FILTER_TYPE_DEFAULT]
        ++ writeComments comments ++
        [.write_info, .set_packing, .set_swap_alpha, .set_filler 0 PNG_FILLER_AFTER, .set_bgr,
          .write_image rows, .write_end, .destroy_write_struct])
      = ⟨width, height, text, true, true, true,
          (rows.take height).map (encodeRow true true true mem width)⟩ := by
  unfold writeComments
  by_cases h : comments.length % 4294967296 = 0
  · exact ⟨[], by simp [h, png_encode, Encoder.step]⟩
  · refine ⟨(textLoop comments (comments.length % 4294967296) 0
      (List.replicate (comments.length % 4294967296) ⟨0, "", "", 0⟩)).take
        (asInt (comments.length % 4294967296)).toNat, ?_⟩
    simp only [h, if_false, png_encode, List.foldl_append, List.foldl_cons, List.foldl_nil,
      Encoder.step, List.nil_append]

theorem formatCheck_rgb : formatCheck PNG_COLOR_TYPE_RGB = .ok [] := by
  simp [formatCheck, PNG_COLOR_TYPE_RGB, PNG_COLOR_TYPE_RGBA, PNG_COLOR_TYPE_GRAY,
    PNG_COLOR_TYPE_GRAY_ALPHA, PNG_COLOR_TYPE_PALETTE]

theorem loadImage_ofFile (mapRGB : Nat → Nat → Nat → Nat)
    (resize : FBSurface → Nat → Nat → FBSurface) (heap : Heap) (file : Encoder)
    (ri : ReadInfoType) (surface : FBSurface)
    (halloc : (allocateStorage heap ri file.width file.height).1 = true) :
    (loadImage mapRGB resize (LoadEnv.ofFile heap file) ri surface).exit = .returned ∧
      (loadImage mapRGB resize (LoadEnv.ofFile heap file) ri surface).surface =
        loadImagetoSurface mapRGB resize
          { setRowPointers (allocateStorage heap ri file.width file.height).2 with
            buffer := (allocateStorage heap ri file.width file.height).2.buffer.map
              (png_read_image
                (deref (setRowPointers (allocateStorage heap ri file.width file.height).2).row_pointers)
                file.rows 0) }
          surface ∧
      (loadImage mapRGB resize (LoadEnv.ofFile heap file) ri surface).readInfo =
        { setRowPointers (allocateStorage heap ri file.width file.height).2 with
          buffer := (allocateStorage heap ri file.width file.height).2.buffer.map
            (png_read_image
              (deref (setRowPointers (allocateStorage heap ri file.width file.height).2).row_pointers)
              file.rows 0) } := by
  rcases hA : allocateStorage heap ri file.width file.height with ⟨b, ri1⟩
  rw [hA] at halloc
  simp only at halloc
  subst halloc
  unfold loadImage
  simp only [LoadEnv.ofFile, formatCheck_rgb, hA, loadImage_done]
  simp [setRowPointers]

theorem saveThenLoad_pixel (mapRGB : Nat → Nat → Nat → Nat)
    (resize : FBSurface → Nat → Nat → FBSurface) (heap : Heap) (env : SaveEnv) (mem : Mem)
    (rows : List Nat) (w h : Nat) (comments : VariantList) (ri : ReadInfoType)
    (surface : FBSurface)
    (hsave : (saveImage env rows w h comments).exit = .returned)
    (hrows : h ≤ rows.length) (hfit : w * h * 3 < 4294967296) (hcache : CacheOk ri)
    (halloc : (allocateStorage heap ri w h).1 = true)
    (hp1 : w ≤ surface.pitch) (hp2 : w ≤ (resize surface w h).pitch) :
    (saveThenLoad mapRGB resize heap env mem rows w h comments ri surface).exit = .returned ∧
      ∀ r c, r < h → c < w →
        (saveThenLoad mapRGB resize heap env mem rows w h comments ri surface).surface.pixels
            (r * (saveThenLoad mapRGB resize heap env mem rows w h comments ri
              surface).surface.pitch + c)
          = mapRGB (mem (rows.getD r 0 + 4 * c + 3)) (mem (rows.getD r 0 + 4 * c + 2))
              (mem (rows.getD r 0 + 4 * c + 1)) := by
  unfold saveThenLoad
  rw [saveImage_returned env rows w h comments hsave]
  obtain ⟨text, hfile⟩ := png_encode_saved mem rows w h comments
  rw [hfile]
  have hL := loadImage_ofFile mapRGB resize heap
    ⟨w, h, text, true, true, true, (rows.take h).map (encodeRow true true true mem w)⟩
    ri surface halloc
  refine ⟨hL.1, ?_⟩
  intro r c hr hc
  rw [hL.2.1]
  obtain ⟨hw, hh, hpi, hcap, hrs⟩ := allocateStorage_ok heap ri w h halloc
  obtain ⟨hcb, hcr⟩ := allocateStorage_cacheOk heap ri w h hcache halloc
  have hw3 : w * 3 ≤ w * h * 3 :=
    Nat.mul_le_mul_right 3 (Nat.le_mul_of_pos_right w (by omega))
  have hpos : 0 < w * h * 3 := by
    have : 0 < w * 3 := by omega
    omega
  rw [Nat.mod_eq_of_lt hfit] at hcap
  rw [Nat.mod_eq_of_lt (by omega)] at hpi
  obtain ⟨m0, hm0⟩ := Option.isSome_iff_exists.mp (hcb (by omega))
  obtain ⟨rp0, hrp0⟩ := Option.isSome_iff_exists.mp (hcr (by omega))
  have hrp : ∀ j, 0 ≤ j → j < 0 + (rows.take h).length →
      deref (setRowPointers (allocateStorage heap ri w h).2).row_pointers j = j * (3 * w) := by
    intro j _ hj
    have hjh : j < h := by
      rw [List.length_take] at hj
      omega
    rw [rowPointers_of_fits heap ri w h hcache halloc hfit j hjh]
    ring
  have hlen : r < (rows.take h).length := by
    rw [List.length_take]
    omega
  have hget : (rows.take h).getD r 0 = rows.getD r 0 := by
    simp only [List.getD_eq_getElem?_getD, List.getElem?_take_of_lt hr]
  have hread := fun t ht => png_read_image_apply mem
    (deref (setRowPointers (allocateStorage heap ri w h).2).row_pointers) w (rows.take h) 0 m0
    r c t hrp hlen hc ht
  rw [loadImagetoSurface_apply mapRGB resize _ surface r c
    (by simpa [setRowPointers] using (by omega : r < (allocateStorage heap ri w h).2.height))
    (by simpa [setRowPointers] using (by omega : c < (allocateStorage heap ri w h).2.width))
    (by
      rcases prepareSurface_pitch resize
        { setRowPointers (allocateStorage heap ri w h).2 with
          buffer := (allocateStorage heap ri w h).2.buffer.map
            (png_read_image
              (deref (setRowPointers (allocateStorage heap ri w h).2).row_pointers)
              ((rows.take h).map (encodeRow true true true mem w)) 0) }
        surface with hq | hq
      · rw [hq]; simpa [setRowPointers, hw] using hp1
      · rw [hq]; simpa [setRowPointers, hw, hh] using hp2)]
  show mapRGB
      (deref ((allocateStorage heap ri w h).2.buffer.map
        (png_read_image (deref (setRowPointers (allocateStorage heap ri w h).2).row_pointers)
          ((rows.take h).map (encodeRow true true true mem w)) 0))
        (r * (allocateStorage heap ri w h).2.pitch + 3 * c))
      (deref ((allocateStorage heap ri w h).2.buffer.map
        (png_read_image (deref (setRowPointers (allocateStorage heap ri w h).2).row_pointers)
          ((rows.take h).map (encodeRow true true true mem w)) 0))
        (r * (allocateStorage heap ri w h).2.pitch + 3 * c + 1))
      (deref ((allocateStorage heap ri w h).2.buffer.map
        (png_read_image (deref (setRowPointers (allocateStorage heap ri w h).2).row_pointers)
          ((rows.take h).map (encodeRow true true true mem w)) 0))
        (r * (allocateStorage heap ri w h).2.pitch + 3 * c + 2)) = _
  rw [hm0, hpi]
  simp only [Option.map, deref]
  have hx0 : r * (w * 3) + 3 * c = (0 + r) * (3 * w) + 3 * c + 0 := by ring
  have hx1 : r * (w * 3) + 3 * c + 1 = (0 + r) * (3 * w) + 3 * c + 1 := by ring
  have hx2 : r * (w * 3) + 3 * c + 2 = (0 + r) * (3 * w) + 3 * c + 2 := by ring
  have e0 := hread 0 (by omega)
  have e1 := hread 1 (by omega)
  have e2 := hread 2 (by omega)
  rw [← hx0, hget] at e0
  rw [← hx1, hget] at e1
  rw [← hx2, hget] at e2
  rw [e0, e1, e2]

theorem saveImage_fine_returned (rows : List Nat) (width height : Nat) (comments : VariantList) :
    (saveImage SaveEnv.fine rows width height comments).exit = .returned := by
  simp [saveImage, SaveEnv.fine, saveImage_done]

theorem loadImage_ofFile_trace (mapRGB : Nat → Nat → Nat → Nat)
    (resize : FBSurface → Nat → Nat → FBSurface) (heap : Heap) (file : Encoder)
    (ri : ReadInfoType) (surface : FBSurface)
    (halloc : (allocateStorage heap ri file.width file.height).1 = true) :
    (loadImage mapRGB resize (LoadEnv.ofFile heap file) ri surface).trace =
      [.create_read_struct, .create_info_struct, .set_read_fn, .read_info, .get_IHDR,
        .set_strip_16, .set_packing, .allocateStorage file.width file.height, .read_image,
        .read_end, .loadImagetoSurface, .destroy_read_struct true] := by
  rcases hA : allocateStorage heap ri file.width file.height with ⟨b, ri1⟩
  rw [hA] at halloc
  simp only at halloc
  subst halloc
  unfold loadImage
  simp only [LoadEnv.ofFile, formatCheck_rgb, hA, loadImage_done]
  simp

theorem encodeRow_head (mem : Mem) (n p : Nat) (hn : 0 < n) :
    (encodeRow true true true mem n p).head? = some (mem (p + 3)) := by
  cases n with
  | zero => omega
  | succ n => simp [encodeRow, normalise]

theorem encoded_first_byte (mem : Mem) (p : Nat) (rest : List Nat) (w h : Nat)
    (hw : 0 < w) (hh : 0 < h) :
    ((((p :: rest).take h).map (encodeRow true true true mem w)).head?.bind List.head?)
      = some (mem (p + 3)) := by
  cases h with
  | zero => omega
  | succ h =>
    rw [List.take_succ_cons, List.map_cons, List.head?_cons, Option.some_bind,
      encodeRow_head mem w p hw]

theorem convertRowsAccesses_first (width i_pitch s_pitch n i_buf s_buf : Nat)
    (hw : 0 < width) (hn : 0 < n) :
    Access.read i_buf ∈ convertRowsAccesses width i_pitch s_pitch n i_buf s_buf ∧
      Access.read (i_buf + 1) ∈ convertRowsAccesses width i_pitch s_pitch n i_buf s_buf ∧
      Access.read (i_buf + 2) ∈ convertRowsAccesses width i_pitch s_pitch n i_buf s_buf ∧
      Access.write s_buf ∈ convertRowsAccesses width i_pitch s_pitch n i_buf s_buf := by
  cases n with
  | zero => omega
  | succ n =>
    cases width with
    | zero => omega
    | succ width => simp [convertRowsAccesses, convertRowAccesses]

/-- C8, evaluated where it fails: a 65536 by 65536 image, saved without any
codec error from a row table whose first entry is `p`, and loaded back from the
written file on the initial cache. The file declares 65536 by 65536 and its
first decoded byte is the red byte of the original pixel (0, 0). The load runs
without an error up to `png_read_image`, to which it hands row pointer 0 =
buffer base + 0 of a buffer that is null, with recorded capacity 0: that byte
has to be stored through `nullptr` (source line 100). Surface pixel (0, 0) would
be written from the bytes at offsets 0, 1 and 2 of the same null buffer (line
284), none of them below the capacity. So no pixel of the saved image reaches
the surface. -/
theorem saveThenLoad_null_buffer (mem : Mem) (p : Nat) (rest : List Nat)
    (comments : VariantList) :
    (png_encode mem (saveImage SaveEnv.fine (p :: rest) 65536 65536 comments).trace).width
        = 65536 ∧
      (png_encode mem (saveImage SaveEnv.fine (p :: rest) 65536 65536 comments).trace).height
        = 65536 ∧
      ((png_encode mem (saveImage SaveEnv.fine (p :: rest) 65536 65536
        comments).trace).rows.head?.bind List.head?) = some (mem (p + 3)) ∧
      (saveThenLoad packRGB resizeExact Heap.plenty SaveEnv.fine mem (p :: rest) 65536 65536
        comments ReadInfo blankSurface).trace.take 9 =
        [.create_read_struct, .create_info_struct, .set_read_fn, .read_info, .get_IHDR,
          .set_strip_16, .set_packing, .allocateStorage 65536 65536, .read_image] ∧
      (allocateStorage Heap.plenty ReadInfo 65536 65536).2.buffer.isNone = true ∧
      (allocateStorage Heap.plenty ReadInfo 65536 65536).2.buffer_size = 0 ∧
      deref (setRowPointers (allocateStorage Heap.plenty ReadInfo 65536 65536).2).row_pointers 0
        = 0 ∧
      Access.read 0 ∈ loadImagetoSurfaceAccesses resizeExact
        (allocateStorage Heap.plenty ReadInfo 65536 65536).2 blankSurface ∧
      Access.read 1 ∈ loadImagetoSurfaceAccesses resizeExact
        (allocateStorage Heap.plenty ReadInfo 65536 65536).2 blankSurface ∧
      Access.read 2 ∈ loadImagetoSurfaceAccesses resizeExact
        (allocateStorage Heap.plenty ReadInfo 65536 65536).2 blankSurface ∧
      Access.write 0 ∈ loadImagetoSurfaceAccesses resizeExact
        (allocateStorage Heap.plenty ReadInfo 65536 65536).2 blankSurface := by
  have hsaved := saveImage_returned _ _ _ _ _
    (saveImage_fine_returned (p :: rest) 65536 65536 comments)
  obtain ⟨text, hfile⟩ := png_encode_saved mem (p :: rest) 65536 65536 comments
  have halloc : (allocateStorage Heap.plenty ReadInfo 65536 65536).1 = true := by
    rw [allocateStorage_huge]
  have hacc := convertRowsAccesses_first
    (allocateStorage Heap.plenty ReadInfo 65536 65536).2.width
    (allocateStorage Heap.plenty ReadInfo 65536 65536).2.pitch
    (prepareSurface resizeExact (allocateStorage Heap.plenty ReadInfo 65536 65536).2
      blankSurface).pitch
    (allocateStorage Heap.plenty ReadInfo 65536 65536).2.height 0 0
    (by rw [allocateStorage_huge]; decide) (by rw [allocateStorage_huge]; decide)
  refine ⟨?_, ?_, ?_, ?_, ?_, ?_, ?_, hacc.1, hacc.2.1, hacc.2.2.1, hacc.2.2.2⟩
  · rw [hsaved, hfile]
  · rw [hsaved, hfile]
  · rw [hsaved, hfile]
    exact encoded_first_byte mem p rest 65536 65536 (by decide) (by decide)
  · unfold saveThenLoad
    rw [hsaved, hfile]
    rw [loadImage_ofFile_trace packRGB resizeExact Heap.plenty
      ⟨65536, 65536, text, true, true, true,
        ((p :: rest).take 65536).map (encodeRow true true true mem 65536)⟩
      ReadInfo blankSurface halloc]
    rfl
  · rw [allocateStorage_huge]
    rfl
  · rw [allocateStorage_huge]
  · rw [setRowPointers_apply _ Mem.zero (by rw [allocateStorage_huge]) 0
      (by rw [allocateStorage_huge]; decide)]
    rfl

/-! ## C9: the region capture -/

theorem saveRowsLoop_getElem? (width : Nat) :
    ∀ (n k : Nat) (rows : List Nat) (j : Nat),
      (saveRowsLoop width n k rows)[j]? =
        if k ≤ j ∧ j < k + n ∧ j < rows.length then some ((j * width * 4) % 4294967296)
        else rows[j]? := by
  intro n
  induction n with
  | zero =>
    intro k rows j
    have h0 : ¬ (k ≤ j ∧ j < k + 0 ∧ j < rows.length) := by omega
    rw [saveRowsLoop, if_neg h0]
  | succ n ih =>
    intro k rows j
    rw [saveRowsLoop, ih, List.length_set]
    by_cases h1 : k + 1 ≤ j ∧ j < k + 1 + n ∧ j < rows.length
    · have h2 : k ≤ j ∧ j < k + (n + 1) ∧ j < rows.length := by omega
      rw [if_pos h1, if_pos h2]
    · rw [if_neg h1]
      by_cases h4 : k = j
      · subst h4
        by_cases h5 : k < rows.length
        · have h2 : k ≤ k ∧ k < k + (n + 1) ∧ k < rows.length := by omega
          rw [if_pos h2, List.getElem?_set_self h5]
        · have h2 : ¬ (k ≤ k ∧ k < k + (n + 1) ∧ k < rows.length) := by omega
          rw [if_neg h2, List.getElem?_eq_none (by simp; omega),
            List.getElem?_eq_none (by omega)]
      · have h2 : ¬ (k ≤ j ∧ j < k + (n + 1) ∧ j < rows.length) := by omega
        rw [if_neg h2, List.getElem?_set_ne h4]

theorem captureRegion_rows (readPixels : FBSurface → Mem → Nat → Rect → Mem)
    (surface : FBSurface) (rect : Rect) (k : Nat)
    (hk : k < (captureRegion readPixels surface rect).height) :
    (captureRegion readPixels surface rect).rows[k]?
      = some ((k * (captureRegion readPixels surface rect).width * 4) % 4294967296) := by
  simp only [captureRegion] at hk ⊢
  rw [saveRowsLoop_getElem?, List.length_replicate]
  rw [if_pos (by omega)]

theorem captureRegion_dims (readPixels : FBSurface → Mem → Nat → Rect → Mem)
    (surface : FBSurface) (rect : Rect) :
    (captureRegion readPixels surface rect).width
        = (if rect.empty then surface.width else rect.width) ∧
      (captureRegion readPixels surface rect).height
        = (if rect.empty then surface.height else rect.height) ∧
      (captureRegion readPixels surface rect).buffer_size
        = ((if rect.empty then surface.width else rect.width) *
            (if rect.empty then surface.height else rect.height) * 4) % 4294967296 :=
  ⟨rfl, rfl, rfl⟩

/-- C9, evaluated where it fails: for the non-empty rectangle of 65536 by 65536
the dimensions handed to the encoder and declared in the header are the
rectangle's, but the capture buffer is allocated with 0 bytes instead of
65536 * 65536 * 4 = 17179869184, and row pointer 16384 is the buffer base itself
instead of base + 4294967296: the `png_uint_32` products `width * height * 4`
and `k * width * 4` have wrapped. -/
theorem captureRegion_wraps (readPixels : FBSurface → Mem → Nat → Rect → Mem)
    (surface : FBSurface) :
    Event.set_IHDR 65536 65536 8 PNG_COLOR_TYPE_RGB PNG_INTERLACE_NONE
        PNG_COMPRESSION_TYPE_DEFAULT PNG_FILTER_TYPE_DEFAULT ∈
        (saveImageRegion readPixels true SaveEnv.fine surface ⟨0, 0, 65536, 65536, false⟩
          []).trace ∧
      (captureRegion readPixels surface ⟨0, 0, 65536, 65536, false⟩).width = 65536 ∧
      (captureRegion readPixels surface ⟨0, 0, 65536, 65536, false⟩).height = 65536 ∧
      (captureRegion readPixels surface ⟨0, 0, 65536, 65536, false⟩).buffer_size = 0 ∧
      (captureRegion readPixels surface ⟨0, 0, 65536, 65536, false⟩).rows[16384]? = some 0 ∧
      65536 * 65536 * 4 = 17179869184 ∧ 16384 * 65536 * 4 = 4294967296 := by
  have hd := captureRegion_dims readPixels surface ⟨0, 0, 65536, 65536, false⟩
  simp only [Bool.false_eq_true, if_false] at hd
  obtain ⟨hw, hh, hb⟩ := hd
  refine ⟨?_, hw, hh, ?_, ?_, by norm_num, by norm_num⟩
  · unfold saveImageRegion
    simp only [Bool.not_true, Bool.false_eq_true, if_false]
    rw [saveImage_returned _ _ _ _ _ (saveImage_fine_returned _ _ _ _), hw, hh]
    simp
  · rw [hb]
  · rw [captureRegion_rows readPixels surface _ 16384 (by rw [hh]; decide), hw]

/-! ## C10: the comments -/

theorem textLoop_length (comments : VariantList) :
    ∀ (n i : Nat) (text_ptr : List png_text),
      (textLoop comments n i text_ptr).length = text_ptr.length := by
  intro n
  induction n with
  | zero => intro i text_ptr; rfl
  | succ n ih => intro i text_ptr; rw [textLoop, ih, List.length_set]

theorem convertRowAccesses_mem : ∀ (n i_ptr s_ptr : Nat) (a : Access),
    a ∈ convertRowAccesses n i_ptr s_ptr →
      ∃ c, c < n ∧ ((∃ t, t < 3 ∧ a = .read (i_ptr + 3 * c + t)) ∨ a = .write (s_ptr + c)) := by
  intro n
  induction n with
  | zero => intro _ _ a h; simp [convertRowAccesses] at h
  | succ n ih =>
    intro i_ptr s_ptr a h
    simp only [convertRowAccesses, List.mem_append, List.mem_cons, List.mem_singleton,
      List.not_mem_nil, or_false] at h
    rcases h with (h | h | h | h) | h
    · exact ⟨0, by omega, Or.inl ⟨0, by omega, by simpa using h⟩⟩
    · exact ⟨0, by omega, Or.inl ⟨1, by omega, by simpa using h⟩⟩
    · exact ⟨0, by omega, Or.inl ⟨2, by omega, by simpa using h⟩⟩
    · exact ⟨0, by omega, Or.inr (by simpa using h)⟩
    · obtain ⟨c, hc, hr | hw⟩ := ih _ _ a h
      · obtain ⟨t, ht, ha⟩ := hr
        refine ⟨c + 1, by omega, Or.inl ⟨t, ht, ?_⟩⟩
        rw [ha]
        congr 1
        omega
      · refine ⟨c + 1, by omega, Or.inr ?_⟩
        rw [hw]
        congr 1
        omega

theorem convertRowsAccesses_mem (width i_pitch s_pitch : Nat) :
    ∀ (n i_buf s_buf : Nat) (a : Access),
      a ∈ convertRowsAccesses width i_pitch s_pitch n i_buf s_buf →
        ∃ r c, r < n ∧ c < width ∧
          ((∃ t, t < 3 ∧ a = .read (i_buf + r * i_pitch + 3 * c + t)) ∨
            a = .write (s_buf + r * s_pitch + c)) := by
  intro n
  induction n with
  | zero => intro _ _ a h; simp [convertRowsAccesses] at h
  | succ n ih =>
    intro i_buf s_buf a h
    simp only [convertRowsAccesses, List.mem_append] at h
    rcases h with h | h
    · obtain ⟨c, hc, hrw⟩ := convertRowAccesses_mem _ _ _ a h
      refine ⟨0, c, by omega, hc, ?_⟩
      simpa using hrw
    · obtain ⟨r, c, hr, hc, hrd | hw⟩ := ih _ _ a h
      · obtain ⟨t, ht, ha⟩ := hrd
        refine ⟨r + 1, c, by omega, hc, Or.inl ⟨t, ht, ?_⟩⟩
        rw [ha]
        congr 1
        ring
      · refine ⟨r + 1, c, by omega, hc, Or.inr ?_⟩
        rw [hw]
        congr 1
        ring

theorem convertRowAccesses_write : ∀ (n i_ptr s_ptr j : Nat), s_ptr ≤ j → j < s_ptr + n →
    Access.write j ∈ convertRowAccesses n i_ptr s_ptr := by
  intro n
  induction n with
  | zero => intro _ _ _ h1 h2; omega
  | succ n ih =>
    intro i_ptr s_ptr j h1 h2
    simp only [convertRowAccesses, List.mem_append, List.mem_cons, List.mem_singleton,
      List.not_mem_nil, or_false]
    by_cases h : j = s_ptr
    · left; right; right; right; rw [h]
    · right
      exact ih _ _ j (by omega) (by omega)

theorem convertRows_changed (mapRGB : Nat → Nat → Nat → Nat) (buf : Option Mem)
    (width i_pitch s_pitch : Nat) :
    ∀ (n i_buf s_buf : Nat) (px : Mem) (j : Nat),
      convertRows mapRGB buf width i_pitch s_pitch n i_buf s_buf px j ≠ px j →
        Access.write j ∈ convertRowsAccesses width i_pitch s_pitch n i_buf s_buf := by
  intro n
  induction n with
  | zero => intro _ _ px j h; exact absurd rfl h
  | succ n ih =>
    intro i_buf s_buf px j h
    rw [convertRows] at h
    simp only [convertRowsAccesses, List.mem_append]
    by_cases hrow : convertRow mapRGB buf width i_buf s_buf px j = px j
    · right
      apply ih _ _ (convertRow mapRGB buf width i_buf s_buf px) j
      rw [hrow]
      exact h
    · left
      rw [convertRow_apply] at hrow
      by_cases hin : s_buf ≤ j ∧ j < s_buf + width
      · exact convertRowAccesses_write _ _ _ j hin.1 hin.2
      · rw [if_neg hin] at hrow
        exact absurd rfl hrow

theorem prepareSurface_dims (resize : FBSurface → Nat → Nat → FBSurface) (ri : ReadInfoType)
    (surface : FBSurface) :
    (ri.width ≤ surface.width ∧ ri.height ≤ surface.height ∧
        (prepareSurface resize ri surface).width = surface.width ∧
        (prepareSurface resize ri surface).height = surface.height ∧
        (prepareSurface resize ri surface).pitch = surface.pitch) ∨
      ((prepareSurface resize ri surface).width = (resize surface ri.width ri.height).width ∧
        (prepareSurface resize ri surface).height = (resize surface ri.width ri.height).height ∧
        (prepareSurface resize ri surface).pitch = (resize surface ri.width ri.height).pitch) := by
  unfold prepareSurface FBSurface.setSrcSize FBSurface.setSrcPos
  by_cases h : ri.width > surface.width ∨ ri.height > surface.height
  · right; simp [h]
  · left
    simp only [h, if_false, and_self, and_true]
    omega

/-- C11: for `w * h * 3 < 2^32`, on a surface whose row pitch is at least its
width and whose `resize(w, h)` gives a surface of at least `w` by `h` (with a
pitch at least its width), after a successful `allocateStorage(w, h)` every byte
offset `loadImagetoSurface` reads in the decode buffer is below the recorded
capacity `buffer_size`, every word offset it writes is `r * pitch + c` for a row
`r` and a column `c` inside the width x height area of the (possibly resized)
surface, hence below `height * pitch`, and the surface changes at no other
offset. -/
theorem conversion_in_bounds (mapRGB : Nat → Nat → Nat → Nat)
    (resize : FBSurface → Nat → Nat → FBSurface) (heap : Heap) (ri : ReadInfoType)
    (surface : FBSurface) (w h : Nat)
    (hfit : w * h * 3 < 4294967296)
    (hok : (allocateStorage heap ri w h).1 = true)
    (hpitch : surface.width ≤ surface.pitch)
    (hrw : w ≤ (resize surface w h).width) (hrh : h ≤ (resize surface w h).height)
    (hrp : (resize surface w h).width ≤ (resize surface w h).pitch) :
    (∀ i, Access.read i ∈
        loadImagetoSurfaceAccesses resize (allocateStorage heap ri w h).2 surface →
        i < (allocateStorage heap ri w h).2.buffer_size) ∧
      (∀ j, Access.write j ∈
        loadImagetoSurfaceAccesses resize (allocateStorage heap ri w h).2 surface →
        ∃ r c,
          r < (loadImagetoSurface mapRGB resize (allocateStorage heap ri w h).2 surface).height ∧
          c < (loadImagetoSurface mapRGB resize (allocateStorage heap ri w h).2 surface).width ∧
          j = r * (loadImagetoSurface mapRGB resize (allocateStorage heap ri w h).2
            surface).pitch + c ∧
          j < (loadImagetoSurface mapRGB resize (allocateStorage heap ri w h).2 surface).height *
            (loadImagetoSurface mapRGB resize (allocateStorage heap ri w h).2 surface).pitch) ∧
      (∀ j,
        (loadImagetoSurface mapRGB resize (allocateStorage heap ri w h).2 surface).pixels j ≠
          (prepareSurface resize (allocateStorage heap ri w h).2 surface).pixels j →
        Access.write j ∈
          loadImagetoSurfaceAccesses resize (allocateStorage heap ri w h).2 surface) := by
  obtain ⟨hw, hh, hpi, hcap, -⟩ := allocateStorage_ok heap ri w h hok
  rw [Nat.mod_eq_of_lt hfit] at hcap
  refine ⟨?_, ?_, ?_⟩
  · intro i hi
    obtain ⟨r, c, hr, hc, hrd | hwr⟩ := convertRowsAccesses_mem _ _ _ _ _ _ _ hi
    · obtain ⟨t, ht, ha⟩ := hrd
      rw [hh] at hr
      rw [hw] at hc
      have hw3 : w * 3 ≤ w * h * 3 :=
        Nat.mul_le_mul_right 3 (Nat.le_mul_of_pos_right w (by omega))
      rw [Nat.mod_eq_of_lt (by omega)] at hpi
      have hi' : i = 0 + r * (w * 3) + 3 * c + t := by
        have := Access.read.inj ha
        rw [hpi] at this
        exact this
      have h1 : (r + 1) * (w * 3) ≤ h * (w * 3) := Nat.mul_le_mul_right _ (by omega)
      have h2 : (r + 1) * (w * 3) = r * (w * 3) + w * 3 := by ring
      have h3 : h * (w * 3) = w * h * 3 := by ring
      omega
    · exact absurd hwr (by simp)
  · intro j hj
    obtain ⟨r, c, hr, hc, hrd | hwr⟩ := convertRowsAccesses_mem _ _ _ _ _ _ _ hj
    · obtain ⟨t, -, ha⟩ := hrd
      exact absurd ha (by simp)
    · rw [hh] at hr
      rw [hw] at hc
      have hj' : j = 0 + r * (prepareSurface resize (allocateStorage heap ri w h).2
          surface).pitch + c := Access.write.inj hwr
      have hdims : h ≤ (prepareSurface resize (allocateStorage heap ri w h).2 surface).height ∧
          w ≤ (prepareSurface resize (allocateStorage heap ri w h).2 surface).width ∧
          (prepareSurface resize (allocateStorage heap ri w h).2 surface).width ≤
            (prepareSurface resize (allocateStorage heap ri w h).2 surface).pitch := by
        rcases prepareSurface_dims resize (allocateStorage heap ri w h).2 surface with
          ⟨h1, h2, h3, h4, h5⟩ | ⟨h3, h4, h5⟩
        · rw [h3, h4, h5]
          omega
        · rw [h3, h4, h5, hw, hh]
          omega
      obtain ⟨hH, hW, hP⟩ := hdims
      refine ⟨r, c, ?_, ?_, ?_, ?_⟩
      · show r < (prepareSurface resize (allocateStorage heap ri w h).2 surface).height
        omega
      · show c < (prepareSurface resize (allocateStorage heap ri w h).2 surface).width
        omega
      · show j = r * (prepareSurface resize (allocateStorage heap ri w h).2 surface).pitch + c
        omega
      · show j < (prepareSurface resize (allocateStorage heap ri w h).2 surface).height *
          (prepareSurface resize (allocateStorage heap ri w h).2 surface).pitch
        have h1 : (r + 1) * (prepareSurface resize (allocateStorage heap ri w h).2 surface).pitch
            ≤ (prepareSurface resize (allocateStorage heap ri w h).2 surface).height *
              (prepareSurface resize (allocateStorage heap ri w h).2 surface).pitch :=
          Nat.mul_le_mul_right _ (by omega)
        have h2 : (r + 1) * (prepareSurface resize (allocateStorage heap ri w h).2 surface).pitch
            = r * (prepareSurface resize (allocateStorage heap ri w h).2 surface).pitch +
              (prepareSurface resize (allocateStorage heap ri w h).2 surface).pitch := by ring
        omega
  · intro j hj
    exact convertRows_changed mapRGB _ _ _ _ _ _ _ _ j hj

/-- A 2 by 2 image converted onto the 4 by 4 surface after `allocateStorage(2, 2)`
on the initial cache: byte 11, the last one read, is below the capacity, and
word 5, written for pixel (1, 1), is inside the surface. -/
theorem conversion_in_bounds_witness :
    2 * 2 * 3 < 4294967296 ∧
      (allocateStorage Heap.plenty ReadInfo 2 2).1 = true ∧
      blankSurface.width ≤ blankSurface.pitch ∧
      2 ≤ (resizeExact blankSurface 2 2).width ∧ 2 ≤ (resizeExact blankSurface 2 2).height ∧
      (resizeExact blankSurface 2 2).width ≤ (resizeExact blankSurface 2 2).pitch ∧
      Access.read 11 ∈
        loadImagetoSurfaceAccesses resizeExact (allocateStorage Heap.plenty ReadInfo 2 2).2
          blankSurface ∧
      11 < (allocateStorage Heap.plenty ReadInfo 2 2).2.buffer_size ∧
      Access.write 5 ∈
        loadImagetoSurfaceAccesses resizeExact (allocateStorage Heap.plenty ReadInfo 2 2).2
          blankSurface :=
  have hread : Access.read 11 ∈
      loadImagetoSurfaceAccesses resizeExact (allocateStorage Heap.plenty ReadInfo 2 2).2
        blankSurface := by decide
  ⟨by decide, by decide, by decide, by decide, by decide, by decide, hread,
    (conversion_in_bounds packRGB resizeExact Heap.plenty ReadInfo blankSurface 2 2 (by decide)
      (by decide) (by decide) (by decide) (by decide) (by decide)).1 11 hread,
    by decide⟩

end PNGLibrary
